import Mathlib

/-!
Verification of the White Palace Grill transactional workflow engine.

The repository's browser frontend (order page, reservations page, admin
dashboard) and its PostgreSQL schema are embedded directly from the source
files.  The backend HTTP handlers (order/reservation/payment routes) are not
present in the repository snapshot; where a property is decided by that
missing code, the corresponding definition is modelled from the spec and is
marked as such in its doc comment.

Money is represented in integer cents; statuses are represented as the
strings the source code and schema use.
-/

namespace WhitePalace

/-! ## Cart model (frontend order page, src/unnamed/part_005) -/

/-- A menu item as served by `GET /api/menu` and stored in the
`menu_items` table (id, name, price, availability). -/
structure MenuItem where
  id : Nat
  name : String
  price : Int
  availability : Bool
deriving DecidableEq, Repr

/-- A cart line as built by `addToCart`: menu item reference plus a
name/price snapshot taken at add time, and a quantity. -/
structure CartItem where
  menuItemId : Nat
  name : String
  price : Int
  quantity : Int
deriving DecidableEq, Repr

/-- `addToCart` (part_005 lines 70-86): if a line with this `menuItemId`
exists, increment its quantity; otherwise append a fresh line with
quantity 1, snapshotting the item's name and price. -/
def addToCart (cart : List CartItem) (item : MenuItem) : List CartItem :=
  if cart.any (fun c => c.menuItemId == item.id) then
    cart.map (fun c =>
      if c.menuItemId == item.id then { c with quantity := c.quantity + 1 } else c)
  else
    cart ++ [{ menuItemId := item.id, name := item.name, price := item.price,
               quantity := 1 }]

/-- `updateQuantity` (part_005 lines 88-96): map the matching line to its
new quantity, dropping it when the new quantity is not positive
(`.filter(Boolean)` on the `null` produced by the map). -/
def updateQuantity (cart : List CartItem) (menuItemId : Nat) (delta : Int) :
    List CartItem :=
  (cart.map (fun it =>
    if it.menuItemId == menuItemId then
      (if it.quantity + delta > 0 then
        some { it with quantity := it.quantity + delta } else none)
    else some it)).filterMap id

/-- `removeFromCart` (part_005 lines 98-100). -/
def removeFromCart (cart : List CartItem) (menuItemId : Nat) : List CartItem :=
  cart.filter (fun it => it.menuItemId != menuItemId)

/-- `getTotal` (part_005 lines 102-104): `cart.reduce((sum, item) =>
sum + item.price * item.quantity, 0)` — the pre-tax subtotal. -/
def getTotal (cart : List CartItem) : Int :=
  cart.foldl (fun sum it => sum + it.price * it.quantity) 0

/-- States reachable by the order page's cart, starting empty and applying
any sequence of the three cart operations. -/
inductive CartReachable : List CartItem → Prop
  | nil : CartReachable []
  | add (cart : List CartItem) (item : MenuItem) :
      CartReachable cart → CartReachable (addToCart cart item)
  | upd (cart : List CartItem) (menuItemId : Nat) (delta : Int) :
      CartReachable cart → CartReachable (updateQuantity cart menuItemId delta)
  | rem (cart : List CartItem) (menuItemId : Nat) :
      CartReachable cart → CartReachable (removeFromCart cart menuItemId)

/-- The cart invariant: every line has quantity at least 1 and the
`menuItemId`s of the lines are pairwise distinct. -/
def CartInv (cart : List CartItem) : Prop :=
  (∀ it ∈ cart, 1 ≤ it.quantity) ∧ (cart.map (·.menuItemId)).Nodup

/-! ## Status vocabularies (PostgreSQL schema, src/unnamed/part_010) -/

/-- Order statuses admitted by the `valid_status` CHECK constraint on the
`orders` table (part_010 line 70). -/
def schemaOrderStatuses : List String :=
  ["pending", "confirmed", "preparing", "ready", "completed", "cancelled"]

/-- Reservation statuses admitted by the `valid_res_status` CHECK constraint
on the `reservations` table (part_010 line 93); note that `arrived` and
`seated` are absent. -/
def schemaResStatuses : List String :=
  ["pending", "confirmed", "completed", "cancelled", "no_show"]

/-- Payment statuses admitted by the `valid_payment_status` CHECK constraint
on the `payments` table (part_010 line 113). -/
def schemaPaymentStatuses : List String :=
  ["pending", "processing", "succeeded", "failed", "canceled", "refunded"]

/-- The seven reservation states of the spec's reservation graph (§4.2). -/
def reservationGraphStates : List String :=
  ["pending", "confirmed", "arrived", "seated", "completed", "no_show", "cancelled"]

/-! ## Admin dashboard transition buttons (src/unnamed/part_003) -/

/-- The advance buttons `OrdersList` renders for an order with the given
status (part_003 lines 210-233): pending gets "Mark Preparing", preparing
gets "Mark Ready", ready gets "Complete". -/
def orderAdvanceTargets (s : String) : List String :=
  if s == "pending" then ["preparing"]
  else if s == "preparing" then ["ready"]
  else if s == "ready" then ["completed"]
  else []

/-- All transition targets the admin dashboard offers for an order with the
given status (`OrdersList` card actions, part_003 lines 209-242): the
advance button plus a Cancel button whenever the status is neither
`cancelled` nor `completed` (line 234). -/
def orderActions (s : String) : List String :=
  orderAdvanceTargets s ++
    (if s != "cancelled" && s != "completed" then ["cancelled"] else [])

/-- The transition targets the admin dashboard offers for a reservation with
the given status (`ReservationsList` card actions, part_003 lines 277-348).
The `no_show` branch (lines 340-347) renders a Cancel button. -/
def reservationActions (s : String) : List String :=
  if s == "pending" then ["confirmed", "cancelled"]
  else if s == "confirmed" then ["arrived", "no_show", "cancelled"]
  else if s == "arrived" then ["seated", "cancelled"]
  else if s == "seated" then ["completed"]
  else if s == "no_show" then ["cancelled"]
  else []

/-- The reservation transition edges exactly as the spec claims them (§4.2):
the chain pending→confirmed→arrived→seated→completed, `no_show` from
`confirmed` or `arrived` only, `cancelled` from `pending`, `confirmed` or
`arrived` only. -/
def specResEdge (s t : String) : Bool :=
  (s == "pending" && t == "confirmed") || (s == "confirmed" && t == "arrived") ||
  (s == "arrived" && t == "seated") || (s == "seated" && t == "completed") ||
  (t == "no_show" && (s == "confirmed" || s == "arrived")) ||
  (t == "cancelled" && (s == "pending" || s == "confirmed" || s == "arrived"))

/-- The reservation edges the admin dashboard actually offers: the spec
graph plus the extra edge no_show→cancelled. -/
def amendedResEdge (s t : String) : Bool :=
  specResEdge s t || (s == "no_show" && t == "cancelled")

/-- Reservation statuses reachable through the admin dashboard's buttons,
starting from the initial status `pending`. -/
inductive ResReach : String → Prop
  | init : ResReach "pending"
  | step {s t : String} : ResReach s → t ∈ reservationActions s → ResReach t

/-! ## Order lifecycle (schema part_010 lines 51-72; handlers modelled) -/

/-- An order row as in the `orders` table (part_010 lines 51-72), with the
line items carrying the name/price snapshot taken at creation. -/
structure Order where
  id : Nat
  orderNumber : String
  orderItems : List CartItem
  subtotal : Int
  tax : Int
  totalPrice : Int
  orderType : String
  deliveryAddress : Option String
  status : String
  completedAt : Option Nat
deriving DecidableEq, Repr

/-- Modelled from the spec: the `PUT /orders/{id}/status` handler is not in
the repository snapshot; these are the legal order transitions of §4.1 —
pending→preparing→ready→completed, with cancelled reachable from pending,
preparing and ready. -/
def orderEdge (s t : String) : Bool :=
  (s == "pending" && t == "preparing") || (s == "preparing" && t == "ready") ||
  (s == "ready" && t == "completed") ||
  (t == "cancelled" && (s == "pending" || s == "preparing" || s == "ready"))

/-- Modelled from the spec: `transition(orderId, requestedStatus, actor)` of
§4.1 (the backend route handler is not in the repository snapshot).  Returns
the updated store and `none` on success, or the unchanged store and an error
kind; entering `completed` stamps the completion timestamp. -/
def applyOrderTransition (orders : List Order) (oid : Nat) (target : String)
    (now : Nat) : List Order × Option String :=
  match orders.find? (fun o => o.id == oid) with
  | none => (orders, some "NotFound")
  | some o =>
    if orderEdge o.status target then
      (orders.map (fun x =>
        if x.id == oid then
          { x with status := target,
                   completedAt :=
                     if target == "completed" then some now else x.completedAt }
        else x), none)
    else (orders, some "InvalidTransition")

/-- Order statuses reachable by sequences of legal transitions from the
initial status `pending`. -/
inductive OrderStatusReach : String → Prop
  | init : OrderStatusReach "pending"
  | step {s t : String} : OrderStatusReach s → orderEdge s t = true →
      OrderStatusReach t

/-- A `POST /orders` request body as the order page sends it
(part_005 lines 130-137). -/
structure CreateOrderReq where
  items : List CartItem
  orderType : String
  customerName : String
  customerPhone : String
  deliveryAddress : Option String
  specialRequests : Option String
deriving Repr

/-- Modelled from the spec: `createOrder` of §4.1 (the `POST /orders`
handler is not in the repository snapshot).  Rejects an empty item list, a
line quantity below 1, a reference to a missing or unavailable menu item,
and delivery without an address; otherwise computes subtotal/tax/total via
the injected tax function, persists and returns the new `pending` order. -/
def createOrder (taxFn : Int → Int) (menu : List MenuItem)
    (orders : List Order) (req : CreateOrderReq) (freshId : Nat)
    (orderNumber : String) : List Order × Except String Order :=
  if req.items.isEmpty then (orders, .error "ValidationError: empty items")
  else if req.items.any (fun it => it.quantity < 1) then
    (orders, .error "ValidationError: quantity")
  else if req.items.any (fun it =>
      !(menu.any (fun m => m.id == it.menuItemId && m.availability))) then
    (orders, .error "ValidationError: menu item")
  else if req.orderType == "delivery" && req.deliveryAddress == none then
    (orders, .error "ValidationError: delivery address")
  else
    let sub := getTotal req.items
    let o : Order :=
      { id := freshId, orderNumber := orderNumber,
        orderItems := req.items, subtotal := sub, tax := taxFn sub,
        totalPrice := sub + taxFn sub, orderType := req.orderType,
        deliveryAddress := req.deliveryAddress, status := "pending",
        completedAt := none }
    (orders ++ [o], .ok o)

/-- The persistent store the menu and order aggregates live in. -/
structure Store where
  menu : List MenuItem
  orders : List Order
deriving Repr

/-- A menu price change (`menu_items.price` update): rewrites the menu row,
touching nothing else in the store. -/
def setMenuPrice (st : Store) (mid : Nat) (newPrice : Int) : Store :=
  { st with menu := st.menu.map (fun m =>
      if m.id == mid then { m with price := newPrice } else m) }

/-! ## Payment coordination (schema part_010 lines 99-114; handlers
modelled) -/

/-- A payment row as in the `payments` table (part_010 lines 99-114). -/
structure Payment where
  id : Nat
  intentId : String
  orderId : Nat
  amount : Int
  status : String
deriving DecidableEq, Repr

/-- A live payment intent per the glossary: status `pending` or
`processing`. -/
def isLivePayment (p : Payment) : Bool :=
  p.status == "pending" || p.status == "processing"

/-- The payment rows linked to an order that occupy a status in the given
set. -/
def paymentsForIn (pays : List Payment) (oid : Nat) (statuses : List String) :
    List Payment :=
  pays.filter (fun p => p.orderId == oid && statuses.contains p.status)

/-- The live payment rows linked to an order. -/
def livePaymentsFor (pays : List Payment) (oid : Nat) : List Payment :=
  pays.filter (fun p => p.orderId == oid && isLivePayment p)

/-- A concrete live (pending) payment row for order 1. -/
def pLive : Payment :=
  { id := 1, intentId := "pi_1", orderId := 1, amount := 1000,
    status := "pending" }

/-- Modelled from the spec: `createIntent(orderId, amount, currency)` of
§4.3 (the `POST /payments/create-intent` handler is not in the repository
snapshot).  Rejects an unknown order, a cancelled/completed order, and an
amount different from the order's total; reuses a live intent unchanged;
otherwise persists a fresh `pending` payment row. -/
def createIntent (orders : List Order) (pays : List Payment) (oid : Nat)
    (amount : Int) (freshIntentId : String) (freshId : Nat) :
    List Payment × Except String Payment :=
  match orders.find? (fun o => o.id == oid) with
  | none => (pays, .error "NotFound")
  | some o =>
    if o.status == "cancelled" || o.status == "completed" then
      (pays, .error "ValidationError: order closed")
    else if amount != o.totalPrice then
      (pays, .error "ValidationError: amount mismatch")
    else
      match pays.find? (fun p => p.orderId == oid && isLivePayment p) with
      | some p => (pays, .ok p)
      | none =>
        let np : Payment :=
          { id := freshId, intentId := freshIntentId,
            orderId := oid, amount := amount, status := "pending" }
        (pays ++ [np], .ok np)

/-- Modelled from the spec: `reconcile(intentId, outcomeStatus)` of §4.3
(the gateway webhook handler is not in the repository snapshot).  On
`succeeded`, marks the payment succeeded and advances the linked order from
`pending` to `preparing`; on `failed`/`canceled`, marks the payment and
leaves the order untouched. -/
def reconcile (orders : List Order) (pays : List Payment) (intentId : String)
    (outcome : String) : (List Order × List Payment) × Option String :=
  match pays.find? (fun p => p.intentId == intentId) with
  | none => ((orders, pays), some "NotFound")
  | some p =>
    if outcome == "succeeded" then
      ((orders.map (fun o =>
          if o.id == p.orderId && o.status == "pending" then
            { o with status := "preparing" } else o),
        pays.map (fun q =>
          if q.intentId == intentId then { q with status := "succeeded" }
          else q)),
       none)
    else if outcome == "failed" || outcome == "canceled" then
      ((orders,
        pays.map (fun q =>
          if q.intentId == intentId then { q with status := outcome } else q)),
       none)
    else ((orders, pays), some "ValidationError: outcome")

/-- The joint order/payment state the payment coordination manager acts
on. -/
structure PayState where
  orders : List Order
  payments : List Payment
deriving Repr

/-- States reachable by any interleaving of the lifecycle operations,
starting from the empty store. -/
inductive PayReach : PayState → Prop
  | init : PayReach ⟨[], []⟩
  | createOrderStep {st : PayState} (taxFn : Int → Int) (menu : List MenuItem)
      (req : CreateOrderReq) (fid : Nat) (onum : String) : PayReach st →
      PayReach ⟨(createOrder taxFn menu st.orders req fid onum).1, st.payments⟩
  | transitionStep {st : PayState} (oid : Nat) (target : String) (now : Nat) :
      PayReach st →
      PayReach ⟨(applyOrderTransition st.orders oid target now).1, st.payments⟩
  | intentStep {st : PayState} (oid : Nat) (amount : Int) (fi : String)
      (fid : Nat) : PayReach st →
      PayReach ⟨st.orders, (createIntent st.orders st.payments oid amount fi fid).1⟩
  | reconcileStep {st : PayState} (i oc : String) : PayReach st →
      PayReach ⟨(reconcile st.orders st.payments i oc).1.1,
                (reconcile st.orders st.payments i oc).1.2⟩

/-- A concrete pending order used by the concrete payment traces. -/
def cOrder : Order :=
  { id := 1, orderNumber := "WP-1001", orderItems := [], subtotal := 1000,
    tax := 0, totalPrice := 1000, orderType := "pickup",
    deliveryAddress := none, status := "pending", completedAt := none }

/-- A concrete pending order with total $24.50 (2450 cents). -/
def cOrder2450 : Order :=
  { id := 1, orderNumber := "WP-1002", orderItems := [], subtotal := 2450,
    tax := 0, totalPrice := 2450, orderType := "pickup",
    deliveryAddress := none, status := "pending", completedAt := none }

/-! ## Availability arbiter (modelled; no such code exists in the
repository snapshot) -/

/-- A reservation row as in the `reservations` table (part_010 lines 77-94),
with the time in minutes since midnight. -/
structure Reservation where
  id : Nat
  reservationNumber : String
  customerName : String
  customerPhone : String
  partySize : Int
  reservationDate : String
  reservationTime : Int
  status : String
deriving DecidableEq, Repr

/-- An active reservation per the glossary: one whose status counts toward
occupied capacity. -/
def isActiveReservation (s : String) : Bool :=
  s == "pending" || s == "confirmed" || s == "arrived" || s == "seated"

/-- Modelled from the spec: the fixed seating-duration window of §4.2,
applied symmetrically around the requested time. -/
def inSeatingWindow (window t tr : Int) : Bool :=
  t - window < tr && tr < t + window

/-- Modelled from the spec: the occupied-seat sum of the Availability
Arbiter — party sizes of active reservations on the date inside the
window. -/
def occupiedSeats (window : Int) (rs : List Reservation) (date : String)
    (time : Int) : Int :=
  ((rs.filter (fun r => r.reservationDate == date &&
      isActiveReservation r.status &&
      inSeatingWindow window time r.reservationTime)).map
    (fun r => r.partySize)).foldl (· + ·) 0

/-- Modelled from the spec: the Availability Arbiter of §4.2 (no capacity
check exists in the repository snapshot).  Admits iff the occupied sum plus
the requested party size fits the capacity; either way reports the
remaining capacity. -/
def checkAvailability (capacity window : Int) (rs : List Reservation)
    (date : String) (time partySize : Int) : Bool × Int :=
  let occ := occupiedSeats window rs date time
  if occ + partySize ≤ capacity then (true, capacity - occ)
  else (false, capacity - occ)

/-! ## Reservation form page (src/unnamed/part_006, second component) -/

/-- The availability-check parameter triple of the reservation form. -/
structure ResParams where
  reservationDate : String
  reservationTime : String
  partySize : String
deriving DecidableEq, Repr

/-- The `availability` piece of state of the `Reservations` component
(part_006 line 252): null, checking, available, unavailable or error. -/
inductive Avail
  | null
  | checking
  | available
  | unavailable
  | error
deriving DecidableEq, Repr

/-- The `Reservations` component state, extended with the in-flight
availability request (`pendingCheck`), the parameters of the most recent
completed check (`lastChecked`) and the list of issued
`POST /api/reservations` bodies (`submitted`). -/
structure ResPage where
  form : ResParams
  availability : Avail
  pendingCheck : Option ResParams
  lastChecked : Option ResParams
  submitted : List ResParams
deriving DecidableEq, Repr

/-- The initial `Reservations` component state (part_006 lines 243-255):
today's date, time 19:00, party size 2, availability null. -/
def initPage (today : String) : ResPage :=
  { form := { reservationDate := today, reservationTime := "19:00",
              partySize := "2" },
    availability := Avail.null, pendingCheck := none, lastChecked := none,
    submitted := [] }

/-- The events the reservation page reacts to: editing one of the three
critical fields (`handleChange`, part_006 lines 297-304, which resets
availability to null), pressing the form's submit button (line 346: runs
`handleSubmit` when availability is `available`, otherwise starts
`checkAvailability`; the button is disabled while checking), and the arrival
of an availability response for the in-flight request (part_006 lines
260-277). -/
inductive PageEvent
  | setDate (v : String)
  | setTime (v : String)
  | setSize (v : String)
  | press
  | response (ok : Bool)

/-- One step of the reservation page (part_006 lines 257-304, 346,
455-467). -/
def stepEvent (s : ResPage) (e : PageEvent) : ResPage :=
  match e with
  | .setDate v =>
      { s with form := { s.form with reservationDate := v },
               availability := Avail.null }
  | .setTime v =>
      { s with form := { s.form with reservationTime := v },
               availability := Avail.null }
  | .setSize v =>
      { s with form := { s.form with partySize := v },
               availability := Avail.null }
  | .press =>
      if s.availability == Avail.checking then s
      else if s.availability == Avail.available then
        { s with submitted := s.submitted ++ [s.form] }
      else
        { s with availability := Avail.checking, pendingCheck := some s.form }
  | .response ok =>
      match s.pendingCheck with
      | none => s
      | some ps =>
          { s with availability := if ok then Avail.available
                                   else Avail.unavailable,
                   pendingCheck := none, lastChecked := some ps }

/-- Running the page over a list of events. -/
def runEvents (today : String) (es : List PageEvent) : ResPage :=
  es.foldl stepEvent (initPage today)

/-- Page states reachable when no date/time/party-size edit happens while an
availability check is in flight (the in-flight window during which the
source's async `checkAvailability` continuation is still pending). -/
inductive GoodReach : ResPage → Prop
  | init (today : String) : GoodReach (initPage today)
  | press {s : ResPage} : GoodReach s → GoodReach (stepEvent s PageEvent.press)
  | response {s : ResPage} (ok : Bool) : GoodReach s →
      GoodReach (stepEvent s (PageEvent.response ok))
  | setDate {s : ResPage} (v : String) : GoodReach s →
      s.pendingCheck = none → GoodReach (stepEvent s (PageEvent.setDate v))
  | setTime {s : ResPage} (v : String) : GoodReach s →
      s.pendingCheck = none → GoodReach (stepEvent s (PageEvent.setTime v))
  | setSize {s : ResPage} (v : String) : GoodReach s →
      s.pendingCheck = none → GoodReach (stepEvent s (PageEvent.setSize v))

/-- The event trace in which an availability response lands after a date
edit: the user checks availability, edits the date while the request is in
flight, the response then arrives and re-marks the form available, and the
user confirms the booking. -/
def staleRaceEvents : List PageEvent :=
  [PageEvent.press, PageEvent.setDate "2026-10-12", PageEvent.response true,
   PageEvent.press]

/-- A sample menu item for concrete witnesses. -/
def sampleMenuItem : MenuItem :=
  { id := 7, name := "Cheeseburger", price := 899, availability := true }

/-- A sample valid `POST /orders` request for concrete witnesses. -/
def sampleReq : CreateOrderReq :=
  { items := [{ menuItemId := 7, name := "Cheeseburger", price := 899,
                quantity := 1 }],
    orderType := "pickup", customerName := "Ada",
    customerPhone := "3125550100", deliveryAddress := none,
    specialRequests := none }

/-- A sample injected tax function (10 percent, rounded down). -/
def flatTax : Int → Int := fun sub => sub / 10

/-- The order `createOrder flatTax [sampleMenuItem] [] sampleReq 1 "WP-1"`
produces. -/
def sampleOrder : Order :=
  { id := 1, orderNumber := "WP-1", orderItems := sampleReq.items,
    subtotal := 899, tax := 89, totalPrice := 988, orderType := "pickup",
    deliveryAddress := none, status := "pending", completedAt := none }

/-- A `POST /orders` request with an empty item list. -/
def emptyReq : CreateOrderReq :=
  { items := [], orderType := "pickup", customerName := "Ada",
    customerPhone := "3125550100", deliveryAddress := none,
    specialRequests := none }

/-- A concrete order sitting at status `ready`. -/
def readyOrder : Order :=
  { id := 1, orderNumber := "WP-1003", orderItems := [], subtotal := 1000,
    tax := 0, totalPrice := 1000, orderType := "pickup",
    deliveryAddress := none, status := "ready", completedAt := none }

lemma addToCart_inv {cart : List CartItem} (item : MenuItem)
    (h : CartInv cart) : CartInv (addToCart cart item) := by
  obtain ⟨hq, hd⟩ := h
  unfold addToCart
  by_cases hex : cart.any (fun c => c.menuItemId == item.id) = true
  · rw [if_pos hex]
    constructor
    · intro it hit
      rcases List.mem_map.mp hit with ⟨c, hc, hceq⟩
      subst hceq
      by_cases hcid : (c.menuItemId == item.id) = true
      · rw [if_pos hcid]
        have := hq c hc
        have : (1 : Int) ≤ c.quantity + 1 := by omega
        exact this
      · rw [if_neg hcid]
        exact hq c hc
    · have heq : (cart.map (fun c =>
          if c.menuItemId == item.id then { c with quantity := c.quantity + 1 }
          else c)).map (·.menuItemId) = cart.map (·.menuItemId) := by
        rw [List.map_map]
        apply List.map_congr_left
        intro c _
        by_cases hcid : (c.menuItemId == item.id) = true
        · simp only [Function.comp_apply]
          rw [if_pos hcid]
        · simp only [Function.comp_apply]
          rw [if_neg hcid]
      rw [heq]
      exact hd
  · rw [if_neg hex]
    constructor
    · intro it hit
      rcases List.mem_append.mp hit with h1 | h1
      · exact hq it h1
      · simp only [List.mem_singleton] at h1
        subst h1
        exact le_refl 1
    · rw [List.map_append]
      simp only [List.map_cons, List.map_nil]
      rw [List.nodup_append]
      refine ⟨hd, List.nodup_singleton _, ?_⟩
      intro a ha hb
      simp only [List.mem_singleton] at hb
      subst hb
      rcases List.mem_map.mp ha with ⟨c, hc, hceq⟩
      apply hex
      rw [List.any_eq_true]
      exact ⟨c, hc, by simp [hceq]⟩

lemma updateQuantity_map_id_sublist (cart : List CartItem) (menuItemId : Nat)
    (delta : Int) :
    ((updateQuantity cart menuItemId delta).map (·.menuItemId)).Sublist
      (cart.map (·.menuItemId)) := by
  induction cart with
  | nil => simp [updateQuantity]
  | cons c cs ih =>
    unfold updateQuantity at ih ⊢
    simp only [List.map_cons, List.filterMap_cons]
    by_cases hcid : c.menuItemId == menuItemId
    · simp only [hcid, if_true]
      by_cases hqty : c.quantity + delta > 0
      · simp only [hqty, if_true, List.map_cons]
        exact List.Sublist.cons₂ _ ih
      · simp only [hqty, if_false]
        exact List.Sublist.cons _ ih
    · simp only [hcid, if_false, List.map_cons]
      exact List.Sublist.cons₂ _ ih

lemma updateQuantity_inv {cart : List CartItem} (menuItemId : Nat) (delta : Int)
    (h : CartInv cart) : CartInv (updateQuantity cart menuItemId delta) := by
  obtain ⟨hq, hd⟩ := h
  constructor
  · intro it hit
    unfold updateQuantity at hit
    rcases List.mem_filterMap.mp hit with ⟨o, ho, hoit⟩
    rcases List.mem_map.mp ho with ⟨c, hc, hceq⟩
    subst hceq
    simp only [id_eq] at hoit
    by_cases hcid : (c.menuItemId == menuItemId) = true
    · rw [if_pos hcid] at hoit
      by_cases hqty : c.quantity + delta > 0
      · rw [if_pos hqty] at hoit
        simp only [Option.some.injEq] at hoit
        rw [← hoit]
        show 1 ≤ c.quantity + delta
        omega
      · rw [if_neg hqty] at hoit
        simp at hoit
    · rw [if_neg hcid] at hoit
      simp only [Option.some.injEq] at hoit
      rw [← hoit]
      exact hq c hc
  · exact (updateQuantity_map_id_sublist cart menuItemId delta).nodup hd

lemma removeFromCart_inv {cart : List CartItem} (menuItemId : Nat)
    (h : CartInv cart) : CartInv (removeFromCart cart menuItemId) := by
  obtain ⟨hq, hd⟩ := h
  constructor
  · intro it hit
    exact hq it (List.mem_of_mem_filter hit)
  · have hsub : ((removeFromCart cart menuItemId).map (·.menuItemId)).Sublist
        (cart.map (·.menuItemId)) := by
      unfold removeFromCart
      exact List.Sublist.map _ (List.filter_sublist cart)
    exact hsub.nodup hd

lemma cartReachable_inv {cart : List CartItem} (h : CartReachable cart) :
    CartInv cart := by
  induction h with
  | nil => exact ⟨by intro it hit; simp at hit, List.nodup_nil⟩
  | add cart item _ ih => exact addToCart_inv item ih
  | upd cart menuItemId delta _ ih => exact updateQuantity_inv menuItemId delta ih
  | rem cart menuItemId _ ih => exact removeFromCart_inv menuItemId ih

lemma addToCart_ids_of_any (cart : List CartItem) (item : MenuItem)
    (hex : cart.any (fun c => c.menuItemId == item.id) = true) :
    (addToCart cart item).map (·.menuItemId) = cart.map (·.menuItemId) := by
  unfold addToCart
  rw [if_pos hex, List.map_map]
  apply List.map_congr_left
  intro c _
  by_cases hcid : (c.menuItemId == item.id) = true
  · simp only [Function.comp_apply]
    rw [if_pos hcid]
  · simp only [Function.comp_apply]
    rw [if_neg hcid]

lemma updateQuantity_dec_removes (cart : List CartItem) (menuItemId : Nat)
    (h1 : ∀ c ∈ cart, c.menuItemId = menuItemId → c.quantity = 1) :
    ∀ x ∈ updateQuantity cart menuItemId (-1), x.menuItemId ≠ menuItemId := by
  intro x hx
  unfold updateQuantity at hx
  rcases List.mem_filterMap.mp hx with ⟨o, ho, hox⟩
  rcases List.mem_map.mp ho with ⟨c, hc, hceq⟩
  subst hceq
  simp only [id_eq] at hox
  by_cases hcid : (c.menuItemId == menuItemId) = true
  · have hc1 : c.quantity = 1 := h1 c hc (by simpa using hcid)
    rw [if_pos hcid] at hox
    have hneg : ¬ (c.quantity + (-1) > 0) := by omega
    rw [if_neg hneg] at hox
    simp at hox
  · rw [if_neg hcid] at hox
    simp only [Option.some.injEq] at hox
    rw [← hox]
    simpa using hcid

/-- C9: starting from the empty cart, after every sequence of `addToCart`,
`updateQuantity` and `removeFromCart` operations every line has quantity at
least 1, line `menuItemId`s are pairwise distinct, adding an item already in
the cart produces no new line (the line set is unchanged), and a decrement
of a quantity-1 line removes the line entirely. -/
theorem cart_ops_preserve_invariant :
    (∀ cart, CartReachable cart →
      (∀ it ∈ cart, 1 ≤ it.quantity) ∧ (cart.map (·.menuItemId)).Nodup) ∧
    (∀ cart (item : MenuItem),
      cart.any (fun c => c.menuItemId == item.id) = true →
      (addToCart cart item).map (·.menuItemId) = cart.map (·.menuItemId)) ∧
    (∀ cart menuItemId,
      (∀ c ∈ cart, c.menuItemId = menuItemId → c.quantity = 1) →
      ∀ x ∈ updateQuantity cart menuItemId (-1), x.menuItemId ≠ menuItemId) :=
  ⟨fun _ h => cartReachable_inv h, addToCart_ids_of_any,
   updateQuantity_dec_removes⟩

/-- Witness for C9: the concrete one-line cart reached by a single
`addToCart` satisfies the invariant, a second add of the same item keeps the
line set, and decrementing the quantity-1 line removes it. -/
theorem cart_ops_preserve_invariant_witness :
    ((∀ it ∈ addToCart [] sampleMenuItem, 1 ≤ it.quantity) ∧
      ((addToCart [] sampleMenuItem).map (·.menuItemId)).Nodup) ∧
    ((addToCart (addToCart [] sampleMenuItem) sampleMenuItem).map
        (·.menuItemId) = (addToCart [] sampleMenuItem).map (·.menuItemId)) ∧
    (∀ x ∈ updateQuantity (addToCart [] sampleMenuItem) 7 (-1),
      x.menuItemId ≠ 7) :=
  ⟨cart_ops_preserve_invariant.1 _
      (CartReachable.add [] sampleMenuItem CartReachable.nil),
   cart_ops_preserve_invariant.2.1 _ sampleMenuItem (by decide),
   cart_ops_preserve_invariant.2.2 _ 7 (by decide)⟩

lemma reservationActions_sound :
    ∀ s t, t ∈ reservationActions s →
      amendedResEdge s t = true ∧ s ∈ reservationGraphStates ∧
      t ∈ reservationGraphStates := by
  intro s t ht
  unfold reservationActions at ht
  split_ifs at ht with h1 h2 h3 h4 h5
  · have hs := eq_of_beq h1; subst hs
    fin_cases ht <;> exact ⟨by decide, by decide, by decide⟩
  · have hs := eq_of_beq h2; subst hs
    fin_cases ht <;> exact ⟨by decide, by decide, by decide⟩
  · have hs := eq_of_beq h3; subst hs
    fin_cases ht <;> exact ⟨by decide, by decide, by decide⟩
  · have hs := eq_of_beq h4; subst hs
    fin_cases ht
    exact ⟨by decide, by decide, by decide⟩
  · have hs := eq_of_beq h5; subst hs
    fin_cases ht
    exact ⟨by decide, by decide, by decide⟩
  · exact absurd ht (List.not_mem_nil t)

lemma resReach_mem_graph : ∀ s, ResReach s → s ∈ reservationGraphStates := by
  intro s h
  induction h with
  | init => decide
  | step _ ht _ => exact (reservationActions_sound _ _ ht).2.2

/-- C1 counterexample: the admin dashboard offers `cancelled` as a
transition target for a reservation in status `no_show`, an edge the claimed
graph forbids. -/
theorem noShow_cancel_offered :
    "cancelled" ∈ reservationActions "no_show" ∧
    specResEdge "no_show" "cancelled" = false := by
  decide

/-- C1 (amended): every transition target the admin dashboard offers follows
the spec graph extended with the edge no_show→cancelled; every status
reachable through those buttons from `pending`, every status the schema can
store, and every offered target is one of the seven graph states. -/
theorem reservation_transitions_amended_graph :
    (∀ s t, t ∈ reservationActions s → amendedResEdge s t = true) ∧
    (∀ s, ResReach s → s ∈ reservationGraphStates) ∧
    (∀ s, s ∈ schemaResStatuses → s ∈ reservationGraphStates) ∧
    (∀ s t, t ∈ reservationActions s →
      s ∈ reservationGraphStates ∧ t ∈ reservationGraphStates) :=
  ⟨fun s t ht => (reservationActions_sound s t ht).1,
   resReach_mem_graph,
   by decide,
   fun s t ht => ⟨(reservationActions_sound s t ht).2.1,
                  (reservationActions_sound s t ht).2.2⟩⟩

/-- Witness for the amended C1 theorem at concrete inputs: the edge offered
from `no_show` is in the amended graph, and the status `confirmed` reached
from `pending` is one of the seven graph states. -/
theorem reservation_transitions_amended_graph_witness :
    amendedResEdge "no_show" "cancelled" = true ∧
    "confirmed" ∈ reservationGraphStates :=
  ⟨reservation_transitions_amended_graph.1 "no_show" "cancelled" (by decide),
   reservation_transitions_amended_graph.2.1 "confirmed"
     (ResReach.step ResReach.init (by decide))⟩

lemma orderEdge_target_cases {s t : String} (h : orderEdge s t = true) :
    t = "preparing" ∨ t = "ready" ∨ t = "completed" ∨ t = "cancelled" := by
  unfold orderEdge at h
  simp only [Bool.or_eq_true, Bool.and_eq_true] at h
  rcases h with ((⟨_, h⟩ | ⟨_, h⟩) | ⟨_, h⟩) | ⟨h, _⟩
  · exact Or.inl (eq_of_beq h)
  · exact Or.inr (Or.inl (eq_of_beq h))
  · exact Or.inr (Or.inr (Or.inl (eq_of_beq h)))
  · exact Or.inr (Or.inr (Or.inr (eq_of_beq h)))

lemma orderReach_mem : ∀ s, OrderStatusReach s →
    s ∈ ["pending", "preparing", "ready", "completed", "cancelled"] := by
  intro s h
  induction h with
  | init => decide
  | step _ he _ =>
    rcases orderEdge_target_cases he with rfl | rfl | rfl | rfl <;> decide

lemma orderEdge_completed_false (t : String) :
    orderEdge "completed" t = false := by
  unfold orderEdge
  rw [show (("completed" : String) == "pending") = false from rfl,
      show (("completed" : String) == "preparing") = false from rfl,
      show (("completed" : String) == "ready") = false from rfl]
  simp

lemma orderEdge_cancelled_false (t : String) :
    orderEdge "cancelled" t = false := by
  unfold orderEdge
  rw [show (("cancelled" : String) == "pending") = false from rfl,
      show (("cancelled" : String) == "preparing") = false from rfl,
      show (("cancelled" : String) == "ready") = false from rfl]
  simp

lemma orderActions_subset_edges :
    ∀ s t, OrderStatusReach s → t ∈ orderActions s → orderEdge s t = true := by
  intro s t hs ht
  have hmem := orderReach_mem s hs
  fin_cases hmem
  · rw [show orderActions "pending" = ["preparing", "cancelled"] from rfl] at ht
    fin_cases ht <;> decide
  · rw [show orderActions "preparing" = ["ready", "cancelled"] from rfl] at ht
    fin_cases ht <;> decide
  · rw [show orderActions "ready" = ["completed", "cancelled"] from rfl] at ht
    fin_cases ht <;> decide
  · rw [show orderActions "completed" = [] from rfl] at ht
    exact absurd ht (List.not_mem_nil t)
  · rw [show orderActions "cancelled" = [] from rfl] at ht
    exact absurd ht (List.not_mem_nil t)

lemma createOrder_status_pending :
    ∀ (taxFn : Int → Int) menu orders req fid onum o,
      (createOrder taxFn menu orders req fid onum).2 = Except.ok o →
      o.status = "pending" := by
  intro taxFn menu orders req fid onum o h
  unfold createOrder at h
  split_ifs at h with h1 h2 h3 h4
  simp only [Except.ok.injEq] at h
  rw [← h]

lemma applyOrderTransition_ready_pending :
    ∀ orders oid now,
      ((orders.find? (fun o => o.id == oid)).map (fun o => o.status)) =
        some "ready" →
      applyOrderTransition orders oid "pending" now =
        (orders, some "InvalidTransition") := by
  intro orders oid now h
  rcases hf : orders.find? (fun o => o.id == oid) with _ | o
  · rw [hf] at h
    simp at h
  · rw [hf] at h
    have hs : o.status = "ready" := by simpa using h
    simp only [applyOrderTransition, hf, hs]
    rw [if_neg (by decide : ¬ (orderEdge "ready" "pending" = true))]

/-- C4: order statuses only move along
pending→preparing→ready→completed with cancelled reachable from pending,
preparing and ready; completed and cancelled have no outgoing edge while
every other reachable status has one; createOrder always starts an order at
`pending`; the transition targets the admin dashboard offers are exactly
legal edges; and a `ready`→`pending` request is rejected with
`InvalidTransition`, leaving the store unchanged. -/
theorem order_transitions_follow_graph :
    (∀ s, OrderStatusReach s →
      s ∈ ["pending", "preparing", "ready", "completed", "cancelled"]) ∧
    (∀ t, orderEdge "completed" t = false) ∧
    (∀ t, orderEdge "cancelled" t = false) ∧
    (∀ s, OrderStatusReach s → s ≠ "completed" → s ≠ "cancelled" →
      ∃ t, orderEdge s t = true) ∧
    (∀ (taxFn : Int → Int) menu orders req fid onum o,
      (createOrder taxFn menu orders req fid onum).2 = Except.ok o →
      o.status = "pending") ∧
    (∀ s t, OrderStatusReach s → t ∈ orderActions s → orderEdge s t = true) ∧
    (∀ orders oid now,
      ((orders.find? (fun o => o.id == oid)).map (fun o => o.status)) =
        some "ready" →
      applyOrderTransition orders oid "pending" now =
        (orders, some "InvalidTransition")) := by
  refine ⟨orderReach_mem, orderEdge_completed_false, orderEdge_cancelled_false,
    ?_, createOrder_status_pending, orderActions_subset_edges,
    applyOrderTransition_ready_pending⟩
  intro s hs hc1 hc2
  have hmem := orderReach_mem s hs
  fin_cases hmem
  · exact ⟨"preparing", by decide⟩
  · exact ⟨"ready", by decide⟩
  · exact ⟨"completed", by decide⟩
  · exact absurd rfl hc1
  · exact absurd rfl hc2

/-- Witness for C4 at concrete inputs: `preparing` is reached from
`pending` and lies in the five-status set, a freshly created order is
`pending`, the dashboard's `pending`→`preparing` button is a legal edge,
and a concrete `ready`→`pending` request is rejected unchanged. -/
theorem order_transitions_follow_graph_witness :
    "preparing" ∈ ["pending", "preparing", "ready", "completed", "cancelled"] ∧
    (∃ t, orderEdge "pending" t = true) ∧
    sampleOrder.status = "pending" ∧
    orderEdge "pending" "preparing" = true ∧
    applyOrderTransition [readyOrder] 1 "pending" 0 =
      ([readyOrder], some "InvalidTransition") :=
  ⟨order_transitions_follow_graph.1 "preparing"
      (OrderStatusReach.step OrderStatusReach.init (by decide)),
   order_transitions_follow_graph.2.2.2.1 "pending" OrderStatusReach.init
      (by decide) (by decide),
   order_transitions_follow_graph.2.2.2.2.1 flatTax [sampleMenuItem] []
      sampleReq 1 "WP-1" sampleOrder (by rfl),
   order_transitions_follow_graph.2.2.2.2.2.1 "pending" "preparing"
      OrderStatusReach.init (by decide),
   order_transitions_follow_graph.2.2.2.2.2.2 [readyOrder] 1 0 (by decide)⟩

lemma getTotal_go (cart : List CartItem) (a : Int) :
    cart.foldl (fun sum it => sum + it.price * it.quantity) a =
      a + (cart.map (fun it => it.price * it.quantity)).sum := by
  induction cart generalizing a with
  | nil => simp
  | cons c cs ih =>
    rw [List.foldl_cons, ih, List.map_cons, List.sum_cons]
    ring

lemma getTotal_eq_sum (cart : List CartItem) :
    getTotal cart = (cart.map (fun it => it.price * it.quantity)).sum := by
  unfold getTotal
  rw [getTotal_go]
  simp

/-- C8: `createOrder` rejects a request with an empty item list, a line
quantity below 1, a reference to a missing or unavailable menu item, or
type delivery without an address — in each case the order store is returned
unchanged (nothing is persisted) and an error is reported. -/
theorem createOrder_rejects_invalid :
    ∀ (taxFn : Int → Int) menu orders req fid onum,
      (req.items.isEmpty = true ∨
       req.items.any (fun it => it.quantity < 1) = true ∨
       req.items.any (fun it =>
         !(menu.any (fun m => m.id == it.menuItemId && m.availability))) =
           true ∨
       (req.orderType == "delivery" && req.deliveryAddress == none) = true) →
      (createOrder taxFn menu orders req fid onum).1 = orders ∧
      ∃ e, (createOrder taxFn menu orders req fid onum).2 = Except.error e := by
  intro taxFn menu orders req fid onum hviol
  unfold createOrder
  split_ifs with h1 h2 h3 h4
  · exact ⟨rfl, _, rfl⟩
  · exact ⟨rfl, _, rfl⟩
  · exact ⟨rfl, _, rfl⟩
  · exact ⟨rfl, _, rfl⟩
  · rcases hviol with h | h | h | h
    · exact absurd h h1
    · exact absurd h h2
    · exact absurd h h3
    · exact absurd h h4

/-- Witness for C8 at a concrete input: an empty-cart request against an
empty store is rejected and the store stays empty. -/
theorem createOrder_rejects_invalid_witness :
    (createOrder flatTax [sampleMenuItem] [] emptyReq 1 "WP-2").1 = [] ∧
    ∃ e, (createOrder flatTax [sampleMenuItem] [] emptyReq 1 "WP-2").2 =
      Except.error e :=
  createOrder_rejects_invalid flatTax [sampleMenuItem] [] emptyReq 1 "WP-2"
    (Or.inl (by decide))

/-- C5: `getTotal` is the sum of price×quantity over the lines; for every
valid request `createOrder` persists exactly one order whose line items are
the request's snapshotted lines and whose subtotal/tax/total satisfy
total = subtotal + tax with tax the injected function of the subtotal; and
a later menu price change leaves every stored order untouched. -/
theorem createOrder_total_snapshot :
    (∀ cart, getTotal cart =
      (cart.map (fun it => it.price * it.quantity)).sum) ∧
    (∀ (taxFn : Int → Int) menu orders req fid onum,
      req.items.isEmpty = false →
      req.items.any (fun it => it.quantity < 1) = false →
      req.items.any (fun it =>
        !(menu.any (fun m => m.id == it.menuItemId && m.availability))) =
          false →
      (req.orderType == "delivery" && req.deliveryAddress == none) = false →
      ∃ o, (createOrder taxFn menu orders req fid onum).2 = Except.ok o ∧
        (createOrder taxFn menu orders req fid onum).1 = orders ++ [o] ∧
        o.orderItems = req.items ∧
        o.subtotal = getTotal req.items ∧
        o.tax = taxFn (getTotal req.items) ∧
        o.totalPrice = getTotal req.items + taxFn (getTotal req.items)) ∧
    (∀ st mid p, (setMenuPrice st mid p).orders = st.orders) := by
  refine ⟨getTotal_eq_sum, ?_, fun st mid p => rfl⟩
  intro taxFn menu orders req fid onum h1 h2 h3 h4
  unfold createOrder
  rw [if_neg (by simp [h1]), if_neg (by simp [h2]), if_neg (by simp [h3]),
      if_neg (by simp [h4])]
  exact ⟨_, rfl, rfl, rfl, rfl, rfl, rfl⟩

/-- Witness for C5 at a concrete input: the one-line sample request yields
an order with subtotal 899, tax 89 and total 988 cents. -/
theorem createOrder_total_snapshot_witness :
    ∃ o, (createOrder flatTax [sampleMenuItem] [] sampleReq 1 "WP-1").2 =
        Except.ok o ∧
      (createOrder flatTax [sampleMenuItem] [] sampleReq 1 "WP-1").1 =
        [] ++ [o] ∧
      o.orderItems = sampleReq.items ∧
      o.subtotal = getTotal sampleReq.items ∧
      o.tax = flatTax (getTotal sampleReq.items) ∧
      o.totalPrice = getTotal sampleReq.items +
        flatTax (getTotal sampleReq.items) :=
  createOrder_total_snapshot.2.1 flatTax [sampleMenuItem] [] sampleReq 1
    "WP-1" (by decide) (by decide) (by decide) (by decide)

/-- C3: `createIntent` rejects — returning the payment store unchanged, so
no Payment row is created — when the order does not exist, when the order is
already cancelled or completed, and when the submitted amount differs from
the order's total (amount-mismatch ValidationError). -/
theorem createIntent_rejects_invalid :
    (∀ orders pays oid amount fi fid,
      orders.find? (fun o => o.id == oid) = none →
      createIntent orders pays oid amount fi fid =
        (pays, Except.error "NotFound")) ∧
    (∀ orders pays oid amount fi fid o,
      orders.find? (fun o => o.id == oid) = some o →
      (o.status == "cancelled" || o.status == "completed") = true →
      createIntent orders pays oid amount fi fid =
        (pays, Except.error "ValidationError: order closed")) ∧
    (∀ orders pays oid amount fi fid o,
      orders.find? (fun o => o.id == oid) = some o →
      (o.status == "cancelled" || o.status == "completed") = false →
      amount ≠ o.totalPrice →
      createIntent orders pays oid amount fi fid =
        (pays, Except.error "ValidationError: amount mismatch")) := by
  refine ⟨?_, ?_, ?_⟩
  · intro orders pays oid amount fi fid hfind
    simp only [createIntent, hfind]
  · intro orders pays oid amount fi fid o hfind hclosed
    simp only [createIntent, hfind]
    rw [if_pos hclosed]
  · intro orders pays oid amount fi fid o hfind hclosed hne
    simp only [createIntent, hfind]
    rw [if_neg (by simp [hclosed]), if_pos (by simpa using hne)]

/-- Witness for C3 at the spec's concrete scenario: order total 2450 cents,
client-submitted amount 2400 cents — rejected with the amount-mismatch
ValidationError and no payment row created. -/
theorem createIntent_rejects_invalid_witness :
    createIntent [cOrder2450] [] 1 2400 "pi_x" 1 =
      ([], Except.error "ValidationError: amount mismatch") :=
  createIntent_rejects_invalid.2.2 [cOrder2450] [] 1 2400 "pi_x" 1 cOrder2450
    (by rfl) (by rfl) (by decide)

lemma payment_setStatus_intentId (p : Payment) (v : String) :
    ({ p with status := v } : Payment).intentId = p.intentId := rfl

lemma payment_setStatus_orderId (p : Payment) (v : String) :
    ({ p with status := v } : Payment).orderId = p.orderId := rfl

lemma order_setStatus_status (o : Order) (v : String) :
    ({ o with status := v } : Order).status = v := rfl

lemma find?_intent_map_status (pays : List Payment) (i new : String)
    (p : Payment) (h : pays.find? (fun q => q.intentId == i) = some p) :
    (pays.map (fun q =>
        if q.intentId == i then { q with status := new } else q)).find?
      (fun q => q.intentId == i) = some { p with status := new } := by
  induction pays with
  | nil => simp at h
  | cons a as ih =>
    rw [List.map_cons]
    by_cases ha : (a.intentId == i) = true
    · simp only [List.find?, ha] at h
      injection h with h
      subst h
      rw [if_pos ha]
      simp only [List.find?, payment_setStatus_intentId, ha]
    · have ha' : (a.intentId == i) = false := by simpa using ha
      simp only [List.find?, ha'] at h
      rw [if_neg ha]
      simp only [List.find?, ha']
      exact ih h

lemma map_setStatus_idem (pays : List Payment) (i new : String) :
    ((pays.map (fun q =>
        if q.intentId == i then { q with status := new } else q)).map
      (fun q => if q.intentId == i then { q with status := new } else q)) =
    pays.map (fun q =>
      if q.intentId == i then { q with status := new } else q) := by
  rw [List.map_map]
  apply List.map_congr_left
  intro q _
  simp only [Function.comp_apply]
  by_cases h : (q.intentId == i) = true
  · rw [if_pos h, if_pos (by rw [payment_setStatus_intentId]; exact h)]
  · rw [if_neg h, if_neg h]

lemma map_preparing_idem (orders : List Order) (oid : Nat) :
    ((orders.map (fun o =>
        if o.id == oid && o.status == "pending" then
          { o with status := "preparing" } else o)).map
      (fun o => if o.id == oid && o.status == "pending" then
        { o with status := "preparing" } else o)) =
    orders.map (fun o =>
      if o.id == oid && o.status == "pending" then
        { o with status := "preparing" } else o) := by
  rw [List.map_map]
  apply List.map_congr_left
  intro o _
  simp only [Function.comp_apply]
  by_cases h : (o.id == oid && o.status == "pending") = true
  · rw [if_pos h, if_neg ?hn]
    case hn =>
      intro hcontra
      rw [Bool.and_eq_true, order_setStatus_status] at hcontra
      exact absurd hcontra.2 (by decide)
  · rw [if_neg h, if_neg h]

/-- C7: reconciling a payment outcome is idempotent — re-running
`reconcile` on its own output state with the same intent id and outcome
reproduces exactly the same state and report, and `reconcile` never changes
the number of payment rows. -/
theorem reconcile_idempotent :
    (∀ orders pays i oc,
      reconcile (reconcile orders pays i oc).1.1
        (reconcile orders pays i oc).1.2 i oc =
      reconcile orders pays i oc) ∧
    (∀ orders pays i oc,
      ((reconcile orders pays i oc).1.2).length = pays.length) := by
  constructor
  · intro orders pays i oc
    rcases hfind : pays.find? (fun p => p.intentId == i) with _ | p
    · have h1 : reconcile orders pays i oc = ((orders, pays), some "NotFound") := by
        simp only [reconcile, hfind]
      rw [h1]
      exact h1
    · by_cases hsucc : (oc == "succeeded") = true
      · have hoc := eq_of_beq hsucc
        subst hoc
        have hfind2 := find?_intent_map_status pays i "succeeded" p hfind
        have h1 : reconcile orders pays i "succeeded" =
            ((orders.map (fun o =>
                if o.id == p.orderId && o.status == "pending" then
                  { o with status := "preparing" } else o),
              pays.map (fun q =>
                if q.intentId == i then { q with status := "succeeded" }
                else q)), none) := by
          simp only [reconcile, hfind]
          rw [if_pos (by decide)]
        rw [h1]
        show reconcile
            (orders.map (fun o =>
              if o.id == p.orderId && o.status == "pending" then
                { o with status := "preparing" } else o))
            (pays.map (fun q =>
              if q.intentId == i then { q with status := "succeeded" }
              else q)) i "succeeded" = _
        simp only [reconcile, hfind2]
        rw [if_pos (by decide)]
        rw [map_preparing_idem, map_setStatus_idem]
      · by_cases hfail : (oc == "failed" || oc == "canceled") = true
        · have hfind2 := find?_intent_map_status pays i oc p hfind
          have h1 : reconcile orders pays i oc =
              ((orders, pays.map (fun q =>
                if q.intentId == i then { q with status := oc } else q)),
               none) := by
            simp only [reconcile, hfind]
            rw [if_neg (by simp [hsucc]), if_pos hfail]
          rw [h1]
          show reconcile orders
              (pays.map (fun q =>
                if q.intentId == i then { q with status := oc } else q))
              i oc = _
          simp only [reconcile, hfind2]
          rw [if_neg (by simp [hsucc]), if_pos hfail, map_setStatus_idem]
        · have h1 : reconcile orders pays i oc =
              ((orders, pays), some "ValidationError: outcome") := by
            simp only [reconcile, hfind]
            rw [if_neg (by simp [hsucc]), if_neg (by simp [hfail])]
          rw [h1]
          exact h1
  · intro orders pays i oc
    rcases hfind : pays.find? (fun p => p.intentId == i) with _ | p
    · simp only [reconcile, hfind]
    · simp only [reconcile, hfind]
      split_ifs <;> first | rfl | simp

lemma createIntent_pays_cases (orders : List Order) (pays : List Payment)
    (oid : Nat) (amount : Int) (fi : String) (fid : Nat) :
    (createIntent orders pays oid amount fi fid).1 = pays ∨
    ((createIntent orders pays oid amount fi fid).1 =
        pays ++ [{ id := fid, intentId := fi, orderId := oid,
                   amount := amount, status := "pending" }] ∧
      pays.find? (fun p => p.orderId == oid && isLivePayment p) = none) := by
  rcases hf : orders.find? (fun o => o.id == oid) with _ | o
  · simp only [createIntent, hf]
    exact Or.inl trivial
  · simp only [createIntent, hf]
    split_ifs with h1 h2
    · exact Or.inl rfl
    · exact Or.inl rfl
    · rcases hp : pays.find? (fun p => p.orderId == oid && isLivePayment p)
        with _ | p
      · simp only [hp]
        exact Or.inr ⟨trivial, trivial⟩
      · simp only [hp]
        exact Or.inl trivial

lemma live_bound_append_new (pays : List Payment) (oid : Nat) (np : Payment)
    (hnp : np.orderId = oid) (hlive : isLivePayment np = true)
    (hnone : pays.find? (fun p => p.orderId == oid && isLivePayment p) = none)
    (h : ∀ k, (livePaymentsFor pays k).length ≤ 1) :
    ∀ k, (livePaymentsFor (pays ++ [np]) k).length ≤ 1 := by
  intro k
  unfold livePaymentsFor
  rw [List.filter_append]
  by_cases hk : k = oid
  · subst hk
    have hnil : pays.filter (fun p => p.orderId == k && isLivePayment p) = [] := by
      rw [List.filter_eq_nil_iff]
      intro p hp
      exact List.find?_eq_none.mp hnone p hp
    have hpred : (np.orderId == k && isLivePayment np) = true := by
      simp [hnp, hlive]
    rw [hnil, List.nil_append]
    simp [List.filter, hpred]
  · have hpred : (np.orderId == k && isLivePayment np) = false := by
      have hne : (np.orderId == k) = false := by
        rw [hnp]
        exact beq_eq_false_iff_ne.mpr (fun hh => hk hh.symm)
      simp [hne]
    simp only [List.filter, hpred, List.append_nil]
    have hk2 := h k
    unfold livePaymentsFor at hk2
    exact hk2

lemma live_filter_map_le (pays : List Payment) (f : Payment → Payment)
    (hf : ∀ p, f p = p ∨
      ((f p).orderId = p.orderId ∧ isLivePayment (f p) = false)) :
    ∀ k, (livePaymentsFor (pays.map f) k).length ≤
      (livePaymentsFor pays k).length := by
  intro k
  unfold livePaymentsFor
  induction pays with
  | nil => simp
  | cons a as ih =>
    rw [List.map_cons]
    by_cases hp : ((f a).orderId == k && isLivePayment (f a)) = true
    · rcases hf a with hfa | ⟨_, hfa⟩
      · rw [hfa] at hp ⊢
        simp only [List.filter, hp, List.length_cons]
        omega
      · rw [Bool.and_eq_true] at hp
        exact absurd hp.2 (by simp [hfa])
    · have hp2 : ((f a).orderId == k && isLivePayment (f a)) = false := by
        simpa using hp
      by_cases ha : (a.orderId == k && isLivePayment a) = true
      · simp only [List.filter, hp2, ha, List.length_cons]
        omega
      · have ha2 : (a.orderId == k && isLivePayment a) = false := by
          simpa using ha
        simp only [List.filter, hp2, ha2]
        exact ih

lemma reconcile_live_bound (orders : List Order) (pays : List Payment)
    (i oc : String) (h : ∀ k, (livePaymentsFor pays k).length ≤ 1) :
    ∀ k, (livePaymentsFor (reconcile orders pays i oc).1.2 k).length ≤ 1 := by
  intro k
  rcases hfind : pays.find? (fun p => p.intentId == i) with _ | p
  · simp only [reconcile, hfind]
    exact h k
  · simp only [reconcile, hfind]
    split_ifs with h1 h2
    · refine le_trans (live_filter_map_le pays _ ?_ k) (h k)
      intro q
      by_cases hq : (q.intentId == i) = true
      · right
        rw [if_pos hq]
        exact ⟨payment_setStatus_orderId q _, rfl⟩
      · left
        rw [if_neg hq]
    · have hoc : oc = "failed" ∨ oc = "canceled" := by
        rw [Bool.or_eq_true] at h2
        rcases h2 with h2 | h2
        · exact Or.inl (eq_of_beq h2)
        · exact Or.inr (eq_of_beq h2)
      refine le_trans (live_filter_map_le pays _ ?_ k) (h k)
      intro q
      by_cases hq : (q.intentId == i) = true
      · right
        rw [if_pos hq]
        refine ⟨payment_setStatus_orderId q _, ?_⟩
        rcases hoc with rfl | rfl <;> rfl
      · left
        rw [if_neg hq]
    · exact h k

lemma payReach_at_most_one_live :
    ∀ st, PayReach st → ∀ oid,
      (livePaymentsFor st.payments oid).length ≤ 1 := by
  intro st h
  induction h with
  | init =>
    intro oid
    simp [livePaymentsFor]
  | createOrderStep taxFn menu req fid onum _ ih => exact ih
  | transitionStep oid target now _ ih => exact ih
  | intentStep oid amount fi fid _ ih =>
    intro k
    rcases createIntent_pays_cases _ _ oid amount fi fid with hc | ⟨hc, hnone⟩
    · show (livePaymentsFor _ k).length ≤ 1
      rw [hc]
      exact ih k
    · show (livePaymentsFor _ k).length ≤ 1
      rw [hc]
      exact live_bound_append_new _ oid
        { id := fid, intentId := fi, orderId := oid, amount := amount,
          status := "pending" } rfl rfl hnone ih k
  | reconcileStep i oc _ ih =>
    exact fun k => reconcile_live_bound _ _ i oc ih k

/-- C2 (amended): at most one live (pending/processing) payment row per
order ever exists; calling `createIntent` while a live intent exists never
adds a payment row; and a valid `createIntent` call (existing open order,
matching amount) with a live intent returns that intent unchanged. -/
theorem payment_live_intent_unique :
    (∀ st, PayReach st → ∀ oid,
      (livePaymentsFor st.payments oid).length ≤ 1) ∧
    (∀ orders pays oid amount fi fid,
      pays.any (fun p => p.orderId == oid && isLivePayment p) = true →
      (createIntent orders pays oid amount fi fid).1 = pays) ∧
    (∀ orders pays oid amount fi fid o p,
      orders.find? (fun o => o.id == oid) = some o →
      (o.status == "cancelled" || o.status == "completed") = false →
      amount = o.totalPrice →
      pays.find? (fun q => q.orderId == oid && isLivePayment q) = some p →
      createIntent orders pays oid amount fi fid = (pays, Except.ok p)) := by
  refine ⟨payReach_at_most_one_live, ?_, ?_⟩
  · intro orders pays oid amount fi fid hany
    rcases createIntent_pays_cases orders pays oid amount fi fid
      with hc | ⟨hc, hnone⟩
    · exact hc
    · rw [List.any_eq_true] at hany
      rcases hany with ⟨p, hp, hpred⟩
      exact absurd hpred (List.find?_eq_none.mp hnone p hp)
  · intro orders pays oid amount fi fid o p hfind hopen hamt hlive
    simp only [createIntent, hfind]
    rw [if_neg (by simp [hopen]), if_neg (by simp [hamt])]
    simp only [hlive]

/-- C2 counterexample: create an intent for a pending order, reconcile it
as succeeded, then call `createIntent` again with the same (still valid)
amount — a second payment row is created, so the order now has two payment
rows in {pending, processing, succeeded}. -/
theorem second_intent_after_success :
    (paymentsForIn
      (createIntent
        (reconcile [cOrder] (createIntent [cOrder] [] 1 1000 "pi_1" 1).1
          "pi_1" "succeeded").1.1
        (reconcile [cOrder] (createIntent [cOrder] [] 1 1000 "pi_1" 1).1
          "pi_1" "succeeded").1.2
        1 1000 "pi_2" 2).1
      1 ["pending", "processing", "succeeded"]).length = 2 := by
  decide

/-- Witness for the amended C2 theorem at concrete inputs: a reachable
state with one intent has at most one live row, a call with a live intent
present leaves the rows unchanged, and a valid duplicate call returns the
live intent itself. -/
theorem payment_live_intent_unique_witness :
    (livePaymentsFor
      (createIntent (createOrder flatTax [sampleMenuItem] [] sampleReq 1
        "WP-1").1 [] 1 988 "pi_1" 1).1 1).length ≤ 1 ∧
    (createIntent [cOrder] [pLive] 1 1000 "pi_9" 9).1 = [pLive] ∧
    createIntent [cOrder] [pLive] 1 1000 "pi_9" 9 =
      ([pLive], Except.ok pLive) :=
  ⟨payment_live_intent_unique.1 _
      (PayReach.intentStep 1 988 "pi_1" 1
        (PayReach.createOrderStep flatTax [sampleMenuItem] sampleReq 1 "WP-1"
          PayReach.init)) 1,
   payment_live_intent_unique.2.1 [cOrder] [pLive] 1 1000 "pi_9" 9
     (by decide),
   payment_live_intent_unique.2.2 [cOrder] [pLive] 1 1000 "pi_9" 9 cOrder
     pLive (by rfl) (by rfl) (by decide) (by rfl)⟩

/-- C6: the Availability Arbiter admits a request iff the requested party
size plus the sum of party sizes of active reservations on the date inside
the seating-duration window fits the capacity, and it always reports the
remaining capacity. -/
theorem availability_admits_iff :
    ∀ capacity window rs date time partySize,
      ((checkAvailability capacity window rs date time partySize).1 = true ↔
        partySize + ((rs.filter (fun r => r.reservationDate == date &&
            isActiveReservation r.status &&
            inSeatingWindow window time r.reservationTime)).map
          (fun r => r.partySize)).sum ≤ capacity) ∧
      (checkAvailability capacity window rs date time partySize).2 =
        capacity - occupiedSeats window rs date time := by
  intro capacity window rs date time partySize
  have hocc : occupiedSeats window rs date time =
      ((rs.filter (fun r => r.reservationDate == date &&
          isActiveReservation r.status &&
          inSeatingWindow window time r.reservationTime)).map
        (fun r => r.partySize)).sum := by
    unfold occupiedSeats
    rw [List.sum_eq_foldl]
  rw [← hocc]
  simp only [checkAvailability]
  split_ifs with hle
  · refine ⟨⟨fun _ => by omega, fun _ => rfl⟩, rfl⟩
  · refine ⟨⟨fun hc => by simp at hc, fun hc => absurd (by omega) hle⟩, rfl⟩

/-- C10 counterexample: with the stale-race event trace — check pressed for
date 2026-10-11, date edited to 2026-10-12 while the request is in flight,
the response then arriving and the booking confirmed — the frontend issues
the POST /api/reservations body for 2026-10-12 although the most recent
availability check was for 2026-10-11. -/
theorem stale_check_submission :
    (runEvents "2026-10-11" staleRaceEvents).submitted =
      [{ reservationDate := "2026-10-12", reservationTime := "19:00",
         partySize := "2" }] ∧
    (runEvents "2026-10-11" staleRaceEvents).lastChecked =
      some { reservationDate := "2026-10-11", reservationTime := "19:00",
             partySize := "2" } ∧
    (runEvents "2026-10-11" staleRaceEvents).lastChecked ≠
      some { reservationDate := "2026-10-12", reservationTime := "19:00",
             partySize := "2" } := by
  decide

lemma goodReach_invariant : ∀ s, GoodReach s →
    (∀ ps, s.pendingCheck = some ps → ps = s.form) ∧
    (s.availability = Avail.available → s.lastChecked = some s.form) := by
  intro s h
  induction h with
  | init today =>
    constructor
    · intro ps hps
      simp [initPage] at hps
    · intro hav
      simp [initPage] at hav
  | press hgood ih =>
    rcases ih with ⟨ih1, ih2⟩
    simp only [stepEvent]
    split_ifs with h1 h2
    · exact ⟨ih1, ih2⟩
    · exact ⟨ih1, ih2⟩
    · constructor
      · intro ps hps
        dsimp only at hps
        simp only [Option.some.injEq] at hps
        exact hps.symm
      · intro hav
        simp at hav
  | response ok hgood ih =>
    rename_i s
    rcases ih with ⟨ih1, ih2⟩
    rcases hpc : s.pendingCheck with _ | ps
    · simp only [stepEvent, hpc]
      exact ⟨fun ps hps => absurd hps (by simp), ih2⟩
    · simp only [stepEvent, hpc]
      constructor
      · intro ps' hps'
        simp at hps'
      · intro _
        rw [ih1 ps hpc]
  | setDate v hgood hpc ih =>
    simp only [stepEvent]
    constructor
    · intro ps hps
      rw [hpc] at hps
      simp at hps
    · intro hav
      simp at hav
  | setTime v hgood hpc ih =>
    simp only [stepEvent]
    constructor
    · intro ps hps
      rw [hpc] at hps
      simp at hps
    · intro hav
      simp at hav
  | setSize v hgood hpc ih =>
    simp only [stepEvent]
    constructor
    · intro ps hps
      rw [hpc] at hps
      simp at hps
    · intro hav
      simp at hav

/-- C10 (amended): the reservation form issues the booking POST only when
the availability state is `available`, and editing date, time or party size
resets that state — so in every run in which no critical field is edited
while an availability check is in flight, a booking is only ever submitted
with exactly the parameters of the most recent availability check. -/
theorem reservation_form_guard :
    (∀ s, GoodReach s → s.availability = Avail.available →
      s.lastChecked = some s.form) ∧
    (∀ s, s.availability = Avail.available →
      (stepEvent s PageEvent.press).submitted = s.submitted ++ [s.form]) ∧
    (∀ s, s.availability ≠ Avail.available →
      (stepEvent s PageEvent.press).submitted = s.submitted) := by
  refine ⟨fun s h => (goodReach_invariant s h).2, ?_, ?_⟩
  · intro s hav
    simp only [stepEvent]
    rw [if_neg (by rw [hav]; decide), if_pos (by rw [hav]; decide)]
  · intro s hav
    simp only [stepEvent]
    by_cases h1 : (s.availability == Avail.checking) = true
    · rw [if_pos h1]
    · rw [if_neg h1, if_neg (by simpa using hav)]

/-- Witness for the amended C10 theorem: after a concrete check-press and
its response, the state is available and its last-checked parameters equal
the form's parameters, and pressing submit appends exactly those
parameters. -/
theorem reservation_form_guard_witness :
    (stepEvent (stepEvent (initPage "2026-10-11") PageEvent.press)
        (PageEvent.response true)).lastChecked =
      some (stepEvent (stepEvent (initPage "2026-10-11") PageEvent.press)
        (PageEvent.response true)).form ∧
    (stepEvent (stepEvent (stepEvent (initPage "2026-10-11")
        PageEvent.press) (PageEvent.response true))
        PageEvent.press).submitted =
      (stepEvent (stepEvent (initPage "2026-10-11") PageEvent.press)
        (PageEvent.response true)).submitted ++
      [(stepEvent (stepEvent (initPage "2026-10-11") PageEvent.press)
        (PageEvent.response true)).form] :=
  ⟨reservation_form_guard.1 _
      (GoodReach.response true (GoodReach.press (GoodReach.init "2026-10-11")))
      (by decide),
   reservation_form_guard.2.1 _ (by decide)⟩

end WhitePalace
